import Mathlib

/-!
Verification of the GTFS calendar-resolution and validation engine
(`calendarService` and the duplicate-key validator) against its
natural-language specification.

Dates are modelled as rata-die day numbers (day 1 = 0001-01-01 in the
proleptic Gregorian calendar): all dates handled by the source live at
local midnight, so day granularity is exact.  The date-fns library calls
(`parse`, `format`, `getDay`, `isWithinInterval`, `eachDayOfInterval`)
are modelled by executable Lean functions with the semantics of current
date-fns (v3/v4): `parse` with pattern yyyyMMdd yields an invalid date
(here `none`) unless the string is eight digits naming a real calendar
date; `isWithinInterval` sorts its two bounds and returns false when
either is invalid; `format` on a valid date is zero-padded yyyyMMdd;
JavaScript `getDay` returns 0 = Sunday … 6 = Saturday.
-/

set_option autoImplicit false

namespace GTFS

/-- Gregorian leap-year test. -/
def isLeapYear (y : Nat) : Bool :=
  (y % 4 == 0 && y % 100 != 0) || y % 400 == 0

/-- Number of days in month `m` of year `y` (months are 1-based). -/
def daysInMonth (y m : Nat) : Nat :=
  if m == 2 then (if isLeapYear y then 29 else 28)
  else if m == 4 || m == 6 || m == 9 || m == 11 then 30
  else 31

/-- Days before month `m` in a non-leap year (months are 1-based). -/
def cumDays (m : Nat) : Nat :=
  match m with
  | 1 => 0 | 2 => 31 | 3 => 59 | 4 => 90 | 5 => 120 | 6 => 151
  | 7 => 181 | 8 => 212 | 9 => 243 | 10 => 273 | 11 => 304 | _ => 334

/-- Rata-die day number of the civil date `(y, m, d)`:
day 1 is 0001-01-01 of the proleptic Gregorian calendar. -/
def rataDie (y m d : Nat) : Nat :=
  365 * (y - 1) + (y - 1) / 4 - (y - 1) / 100 + (y - 1) / 400 +
    cumDays m + (if 2 < m && isLeapYear y then 1 else 0) + d

/-- Inverse of `rataDie`: the civil date `(y, m, d)` of a rata-die day
number (Hinnant's civil-from-days algorithm, shifted to stay in `Nat`). -/
def civilFromRataDie (n : Nat) : Nat × Nat × Nat :=
  let z := n + 305
  let era := z / 146097
  let doe := z % 146097
  let yoe := (doe - doe / 1460 + doe / 36524 - doe / 146096) / 365
  let doy := doe - (365 * yoe + yoe / 4 - yoe / 100)
  let mp := (5 * doy + 2) / 153
  let dd := doy - (153 * mp + 2) / 5 + 1
  let mm := if mp < 10 then mp + 3 else mp - 9
  (if mm ≤ 2 then yoe + era * 400 + 1 else yoe + era * 400, mm, dd)

/-- JavaScript `getDay` (0 = Sunday … 6 = Saturday) of a rata-die day. -/
def getDay (n : Nat) : Nat := n % 7

/-- Numeric value of a decimal digit character. -/
def digitVal (c : Char) : Nat := c.toNat - 48

/-- Left-pad the decimal representation of `n` with zeros to width 2. -/
def pad2 (n : Nat) : String :=
  if n < 10 then "0" ++ toString n else toString n

/-- Left-pad the decimal representation of `n` with zeros to width 4. -/
def pad4 (n : Nat) : String :=
  if n < 10 then "000" ++ toString n
  else if n < 100 then "00" ++ toString n
  else if n < 1000 then "0" ++ toString n
  else toString n

/-- Models `parseGTFSDate` from the source, i.e. date-fns
`parse(dateString, yyyyMMdd, new Date())`: the result is the parsed
calendar day at local midnight (a rata-die number here), or an invalid
date (`none`) when the string is not eight digits naming a real
proleptic-Gregorian date with year at least 1. -/
def parseGTFSDate (dateString : String) : Option Nat :=
  match dateString.toList with
  | [c1, c2, c3, c4, c5, c6, c7, c8] =>
    if (c1.isDigit && c2.isDigit && c3.isDigit && c4.isDigit &&
        c5.isDigit && c6.isDigit && c7.isDigit && c8.isDigit) then
      let y := digitVal c1 * 1000 + digitVal c2 * 100 + digitVal c3 * 10 + digitVal c4
      let m := digitVal c5 * 10 + digitVal c6
      let d := digitVal c7 * 10 + digitVal c8
      if 1 ≤ y && 1 ≤ m && m ≤ 12 && 1 ≤ d && d ≤ daysInMonth y m then
        some (rataDie y m d)
      else none
    else none
  | _ => none

/-- Models `formatGTFSDate` from the source, i.e. date-fns
`format(date, yyyyMMdd)` on a valid date. -/
def formatGTFSDate (date : Nat) : String :=
  let c := civilFromRataDie date
  pad4 c.1 ++ pad2 c.2.1 ++ pad2 c.2.2

/-- Models date-fns v3/v4 `isWithinInterval`: the two bounds are sorted
before comparison, and any invalid bound makes the result false. -/
def isWithinInterval (time : Nat) (lo hi : Option Nat) : Bool :=
  match lo, hi with
  | some s, some e => min s e ≤ time && time ≤ max s e
  | _, _ => false

/-- Models date-fns v3/v4 `eachDayOfInterval`: one entry per day of the
interval (descending when the bounds are reversed), empty when either
bound is invalid. -/
def eachDayOfInterval (lo hi : Option Nat) : List Nat :=
  match lo, hi with
  | some s, some e =>
    if s ≤ e then (List.range (e - s + 1)).map (fun i => s + i)
    else ((List.range (s - e + 1)).map (fun i => e + i)).reverse
  | _, _ => []

/-- Row of calendar.txt (source interface `GTFSCalendar`). -/
structure GTFSCalendar where
  service_id : String
  monday : Bool
  tuesday : Bool
  wednesday : Bool
  thursday : Bool
  friday : Bool
  saturday : Bool
  sunday : Bool
  start_date : String
  end_date : String
deriving DecidableEq, Repr

/-- Row of calendar_dates.txt (source interface `GTFSCalendarDate`);
`exception_type` is 1 = service added, 2 = service removed. -/
structure GTFSCalendarDate where
  service_id : String
  date : String
  exception_type : Nat
deriving DecidableEq, Repr

/-- Row of trips.txt (source interface `GTFSTrip`). -/
structure GTFSTrip where
  route_id : String
  service_id : String
  trip_id : String
  trip_headsign : Option String := none
  trip_short_name : Option String := none
  direction_id : Option Nat := none
  block_id : Option String := none
  shape_id : Option String := none
deriving DecidableEq, Repr

/-- Row of routes.txt (source interface `GTFSRoute`). -/
structure GTFSRoute where
  route_id : String
  agency_id : Option String := none
  route_short_name : Option String := none
  route_long_name : Option String := none
  route_type : Nat := 0
  route_color : Option String := none
deriving DecidableEq, Repr

/-- The four parsed collections (source interface `GTFSData`). -/
structure GTFSData where
  calendars : List GTFSCalendar
  calendarDates : List GTFSCalendarDate
  trips : List GTFSTrip
  routes : List GTFSRoute
deriving DecidableEq, Repr

/-- The two exception kinds of `CalendarDayStatus.exceptionType`. -/
inductive ExceptionKind where
  | added
  | removed
deriving DecidableEq, Repr

/-- Source interface `CalendarDayStatus`. -/
structure CalendarDayStatus where
  service_id : String
  isActive : Bool
  isException : Bool
  exceptionType : Option ExceptionKind := none
  calendar : Option GTFSCalendar := none
deriving DecidableEq, Repr

/-- Source interface `TripWithRoute`: a trip with its route attached. -/
structure TripWithRoute extends GTFSTrip where
  route : Option GTFSRoute := none
deriving DecidableEq, Repr

/-- Source `dayOfWeekKeys` indexing: the weekday flag of a calendar for
JavaScript weekday number `dow` (0 = sunday … 6 = saturday).  Together
with `getDay` this is the source `isCalendarActiveOnDayOfWeek`. -/
def weekdayFlag (c : GTFSCalendar) (dow : Nat) : Bool :=
  match dow with
  | 0 => c.sunday
  | 1 => c.monday
  | 2 => c.tuesday
  | 3 => c.wednesday
  | 4 => c.thursday
  | 5 => c.friday
  | _ => c.saturday

/-- Source `isCalendarActiveOnDayOfWeek`. -/
def isCalendarActiveOnDayOfWeek (c : GTFSCalendar) (date : Nat) : Bool :=
  weekdayFlag c (getDay date)

/-- Source `isDateInCalendarRange`: parse both bounds and test
`isWithinInterval`. -/
def isDateInCalendarRange (c : GTFSCalendar) (date : Nat) : Bool :=
  isWithinInterval date (parseGTFSDate c.start_date) (parseGTFSDate c.end_date)

/-- The `baseActive` value computed per calendar row in
`getCalendarStatusForDate`: in range and weekday flag set. -/
def baseActive (c : GTFSCalendar) (date : Nat) : Bool :=
  isDateInCalendarRange c date && isCalendarActiveOnDayOfWeek c date

/-- The exception-lookup predicate of `getCalendarStatusForDate`:
`cd.service_id === calendar.service_id && cd.date === dateString`. -/
def matchesException (sid dateString : String) (cd : GTFSCalendarDate) : Bool :=
  cd.service_id == sid && cd.date == dateString

/-- Contribution of one calendar row to the `active` array of
`getCalendarStatusForDate`: an Added exception wins regardless of
`baseActive`; with no exception the row is active iff `baseActive`;
a Removed (or other) exception contributes nothing to `active`. -/
def activeStatusForCalendar (cds : List GTFSCalendarDate) (dateString : String)
    (date : Nat) (c : GTFSCalendar) : Option CalendarDayStatus :=
  match cds.find? (matchesException c.service_id dateString) with
  | some exc =>
    if exc.exception_type == 1 then
      some { service_id := c.service_id, isActive := true, isException := true,
             exceptionType := some .added, calendar := some c }
    else none
  | none =>
    if baseActive c date then
      some { service_id := c.service_id, isActive := true, isException := false,
             exceptionType := none, calendar := some c }
    else none

/-- Contribution of one calendar row to the `excluded` array of
`getCalendarStatusForDate`: a Removed exception on a `baseActive` row. -/
def excludedStatusForCalendar (cds : List GTFSCalendarDate) (dateString : String)
    (date : Nat) (c : GTFSCalendar) : Option CalendarDayStatus :=
  match cds.find? (matchesException c.service_id dateString) with
  | some exc =>
    if exc.exception_type == 2 && baseActive c date then
      some { service_id := c.service_id, isActive := false, isException := true,
             exceptionType := some .removed, calendar := some c }
    else none
  | none => none

/-- Contribution of one calendar_dates.txt row to the second pass of
`getCalendarStatusForDate` (services defined only by exceptions):
rows for the target date whose service id is absent from calendar.txt
and whose type is Added yield an active status with no calendar
back-reference. -/
def exceptionOnlyStatus (calendarServiceIds : List String) (dateString : String)
    (cd : GTFSCalendarDate) : Option CalendarDayStatus :=
  if cd.date == dateString then
    if calendarServiceIds.contains cd.service_id then none
    else if cd.exception_type == 1 then
      some { service_id := cd.service_id, isActive := true, isException := true,
             exceptionType := some .added, calendar := none }
    else none
  else none

/-- Source `getCalendarStatusForDate`: the calendar loop pushes per-row
contributions onto `active` and `excluded` in calendar order, then the
second pass appends exception-only Added services in exception order
(the source `addedServiceIds` set is written but never read, so it is
not modelled). -/
def getCalendarStatusForDate (g : GTFSData) (date : Nat) :
    List CalendarDayStatus × List CalendarDayStatus :=
  let dateString := formatGTFSDate date
  let calendarServiceIds := g.calendars.map (fun c => c.service_id)
  (g.calendars.filterMap (activeStatusForCalendar g.calendarDates dateString date) ++
     g.calendarDates.filterMap (exceptionOnlyStatus calendarServiceIds dateString),
   g.calendars.filterMap (excludedStatusForCalendar g.calendarDates dateString date))

/-- Source `getActiveServiceIds`; the JavaScript `Set` is modelled as
the list of ids of the active statuses, used only through membership. -/
def getActiveServiceIds (g : GTFSData) (date : Nat) : List String :=
  (getCalendarStatusForDate g date).1.map (fun s => s.service_id)

/-- Lookup in the `Map` the source builds from `routes.map(r => [r.route_id, r])`:
a later row with the same `route_id` overwrites an earlier one. -/
def routeMapGet (routes : List GTFSRoute) (rid : String) : Option GTFSRoute :=
  routes.foldl (fun acc r => if r.route_id == rid then some r else acc) none

/-- Source `getTripsForDate`: keep the trips whose service id is in the
active set, in input order, attaching the looked-up route. -/
def getTripsForDate (g : GTFSData) (date : Nat) : List TripWithRoute :=
  let activeServiceIds := getActiveServiceIds g date
  (g.trips.filter (fun trip => activeServiceIds.contains trip.service_id)).map
    (fun trip => { toGTFSTrip := trip, route := routeMapGet g.routes trip.route_id })

/-- Source `getBaseCalendarsForDate`: calendar rows matching by date
range and weekday only, ignoring exceptions. -/
def getBaseCalendarsForDate (g : GTFSData) (date : Nat) : List CalendarDayStatus :=
  g.calendars.filterMap fun c =>
    if isDateInCalendarRange c date && isCalendarActiveOnDayOfWeek c date then
      some { service_id := c.service_id, isActive := true, isException := false,
             exceptionType := none, calendar := some c }
    else none

/-- JavaScript `<` on two `Date` values: false when either is invalid
(`NaN` comparisons are false). -/
def dateLt : Option Nat → Option Nat → Bool
  | some a, some b => a < b
  | _, _ => false

/-- JavaScript `>` on two `Date` values: false when either is invalid. -/
def dateGt : Option Nat → Option Nat → Bool
  | some a, some b => b < a
  | _, _ => false

/-- One `if (!minDate || startDate < minDate) minDate = startDate` step of
`getDateRange`; the outer `none` is the JavaScript `null` initial value,
and an invalid date (inner `none`) is a truthy object, not `null`. -/
def updMin (minDate : Option (Option Nat)) (d : Option Nat) : Option (Option Nat) :=
  match minDate with
  | none => some d
  | some m => if dateLt d m then some d else some m

/-- One `if (!maxDate || endDate > maxDate) maxDate = endDate` step of
`getDateRange`. -/
def updMax (maxDate : Option (Option Nat)) (d : Option Nat) : Option (Option Nat) :=
  match maxDate with
  | none => some d
  | some m => if dateGt d m then some d else some m

/-- Source `getDateRange`: null when both collections are empty, else the
running min over calendar start dates and exception dates and the running
max over calendar end dates and exception dates. -/
def getDateRange (g : GTFSData) : Option (Option Nat × Option Nat) :=
  if g.calendars.isEmpty && g.calendarDates.isEmpty then none
  else
    let st1 := g.calendars.foldl
      (fun st c => (updMin st.1 (parseGTFSDate c.start_date),
                    updMax st.2 (parseGTFSDate c.end_date))) (none, none)
    let st2 := g.calendarDates.foldl
      (fun st cd => (updMin st.1 (parseGTFSDate cd.date),
                     updMax st.2 (parseGTFSDate cd.date))) st1
    match st2 with
    | (some mn, some mx) => some (mn, mx)
    | _ => none

/-- Source `getAvailableDates`: the days from `max(today, range.start)` to
`range.end`.  The source obtains `today` from the wall clock (`new Date()`
truncated to local midnight); following the specification it is taken here
as an explicit parameter, the day number of that midnight. -/
def getAvailableDates (g : GTFSData) (today : Nat) : List Nat :=
  match getDateRange g with
  | none => []
  | some range =>
    let startDate := if dateGt (some today) range.1 then some today else range.1
    if dateGt startDate range.2 then []
    else eachDayOfInterval startDate range.2

/-- Source interface `ValidationIssue`. -/
structure ValidationIssue where
  type : String
  file : String
  field : String
  message : String
  duplicates : List String
deriving DecidableEq, Repr

/-- The `stats` record of the source `ValidationResult`. -/
structure ValidationStats where
  tripsChecked : Nat
  calendarsChecked : Nat
  calendarDatesChecked : Nat
deriving DecidableEq, Repr

/-- Source interface `ValidationResult`. -/
structure ValidationResult where
  isValid : Bool
  issues : List ValidationIssue
  stats : ValidationStats
deriving DecidableEq, Repr

/-- One `seen`-map insertion of the source `findDuplicates`: a JavaScript
`Map` keeps keys in first-insertion order, so the key order is the order
of first occurrence. -/
def insertFirst (acc : List String) (x : String) : List String :=
  if acc.contains x then acc else acc ++ [x]

/-- The key order of the `seen` map of `findDuplicates`: first
occurrences, in encounter order. -/
def mapKeysInOrder (arr : List String) : List String :=
  arr.foldl insertFirst []

/-- The count the `seen` map of `findDuplicates` stores for `x`. -/
def countOcc (arr : List String) (x : String) : Nat :=
  (arr.filter (fun y => y == x)).length

/-- Source `findDuplicates`: the values occurring at least twice, each
listed once, in first-occurrence order. -/
def findDuplicates (arr : List String) : List String :=
  (mapKeysInOrder arr).filter (fun x => 1 < countOcc arr x)

/-- The composite key of a calendar_dates.txt row used by the validator. -/
def calendarDateKey (cd : GTFSCalendarDate) : String :=
  cd.service_id ++ "|" ++ cd.date

/-- The display form of a duplicate composite key in the validator
(the source splits on the separator and quotes both halves; every key
built by `calendarDateKey` contains the separator). -/
def formatDuplicateKey (key : String) : String :=
  let parts := key.splitOn "|"
  "service_id=\"" ++ parts.headD "" ++ "\", date=\"" ++ (parts.drop 1).headD "" ++ "\""

/-- The issue the validator pushes for duplicate trip ids. -/
def tripIssue (dups : List String) : ValidationIssue :=
  { type := "error", file := "trips.txt", field := "trip_id",
    message := "Found " ++ toString dups.length ++ " duplicate trip_id value(s)",
    duplicates := dups }

/-- The issue the validator pushes for duplicate calendar service ids. -/
def calendarIssue (dups : List String) : ValidationIssue :=
  { type := "error", file := "calendar.txt", field := "service_id",
    message := "Found " ++ toString dups.length ++ " duplicate service_id value(s)",
    duplicates := dups }

/-- The issue the validator pushes for duplicate exception composite keys. -/
def calendarDatesIssue (dups : List String) : ValidationIssue :=
  { type := "error", file := "calendar_dates.txt", field := "service_id + date",
    message := "Found " ++ toString dups.length ++
      " duplicate service_id + date combination(s)",
    duplicates := dups.map formatDuplicateKey }

/-- Source `validateGTFSData`: the three uniqueness checks, in source
order, each contributing one issue when violated. -/
def validateGTFSData (g : GTFSData) : ValidationResult :=
  let duplicateTripIds := findDuplicates (g.trips.map (fun t => t.trip_id))
  let duplicateCalendarServiceIds :=
    findDuplicates (g.calendars.map (fun c => c.service_id))
  let duplicateCalendarDateKeys :=
    findDuplicates (g.calendarDates.map calendarDateKey)
  let issues :=
    (if 0 < duplicateTripIds.length then [tripIssue duplicateTripIds] else []) ++
    (if 0 < duplicateCalendarServiceIds.length then
      [calendarIssue duplicateCalendarServiceIds] else []) ++
    (if 0 < duplicateCalendarDateKeys.length then
      [calendarDatesIssue duplicateCalendarDateKeys] else [])
  { isValid := issues.length == 0, issues := issues,
    stats := { tripsChecked := g.trips.length,
               calendarsChecked := g.calendars.length,
               calendarDatesChecked := g.calendarDates.length } }

/-- The base-rule status record pushed for a calendar row active with no
exception (spec decision-table row one). -/
def baseStatus (c : GTFSCalendar) : CalendarDayStatus :=
  { service_id := c.service_id, isActive := true, isException := false,
    exceptionType := none, calendar := some c }

/-- The status record pushed for a calendar row with an Added exception. -/
def addedStatus (c : GTFSCalendar) : CalendarDayStatus :=
  { service_id := c.service_id, isActive := true, isException := true,
    exceptionType := some .added, calendar := some c }

/-- The status record pushed for a base-active calendar row with a
Removed exception. -/
def removedStatus (c : GTFSCalendar) : CalendarDayStatus :=
  { service_id := c.service_id, isActive := false, isException := true,
    exceptionType := some .removed, calendar := some c }

/-- The status record pushed for an Added exception whose service id has
no calendar row: no calendar back-reference. -/
def exceptionOnlyAddedStatus (sid : String) : CalendarDayStatus :=
  { service_id := sid, isActive := true, isException := true,
    exceptionType := some .added, calendar := none }

/-- Modelled from the spec: the decision table of §4.1, classifying one
calendar row from the matching exception (if any) and `baseActive`; the
first component is the row's contribution to `active`, the second its
contribution to `excluded`. -/
def specRowResult (exc : Option GTFSCalendarDate) (base : Bool) (c : GTFSCalendar) :
    Option CalendarDayStatus × Option CalendarDayStatus :=
  match exc with
  | none => (if base then some (baseStatus c) else none, none)
  | some e =>
    if e.exception_type = 1 then (some (addedStatus c), none)
    else if e.exception_type = 2 then
      (none, if base then some (removedStatus c) else none)
    else (none, none)

/-- Modelled from the spec: the dates §4.4 ranges over — all parseable
calendar start dates, calendar end dates, and exception dates. -/
def allDatasetDates (g : GTFSData) : List Nat :=
  g.calendars.filterMap (fun c => parseGTFSDate c.start_date) ++
    g.calendars.filterMap (fun c => parseGTFSDate c.end_date) ++
    g.calendarDates.filterMap (fun cd => parseGTFSDate cd.date)

/-- The parsed dates feeding the running minimum of `getDateRange`:
calendar start dates, then exception dates, in scan order. -/
def minVals (g : GTFSData) : List Nat :=
  g.calendars.filterMap (fun c => parseGTFSDate c.start_date) ++
    g.calendarDates.filterMap (fun cd => parseGTFSDate cd.date)

/-- The parsed dates feeding the running maximum of `getDateRange`:
calendar end dates, then exception dates, in scan order. -/
def maxVals (g : GTFSData) : List Nat :=
  g.calendars.filterMap (fun c => parseGTFSDate c.end_date) ++
    g.calendarDates.filterMap (fun cd => parseGTFSDate cd.date)

/-- Weekday calendar of the specification's §8 scenarios: Monday–Friday
over the year 2024. -/
def calWD : GTFSCalendar :=
  { service_id := "WD", monday := true, tuesday := true, wednesday := true,
    thursday := true, friday := true, saturday := false, sunday := false,
    start_date := "20240101", end_date := "20241231" }

/-- Removed exception for WD on 2024-07-04 (§8 scenario). -/
def excRemoved : GTFSCalendarDate :=
  { service_id := "WD", date := "20240704", exception_type := 2 }

/-- Added exception for HOLIDAY (absent from calendar.txt) on 2024-07-04. -/
def excHoliday : GTFSCalendarDate :=
  { service_id := "HOLIDAY", date := "20240704", exception_type := 1 }

/-- Example dataset combining the §8 scenarios. -/
def gEx : GTFSData :=
  { calendars := [calWD], calendarDates := [excRemoved, excHoliday],
    trips := [{ route_id := "R1", service_id := "WD", trip_id := "T1" }],
    routes := [{ route_id := "R1", route_short_name := some "1" }] }

/-- Day number of 2024-07-04, a Thursday. -/
def dJul4 : Nat := rataDie 2024 7 4

/-- Day number of 2024-07-03, a Wednesday. -/
def dJul3 : Nat := rataDie 2024 7 3

/-- All-weekdays calendar with a reversed range: start_date after
end_date. -/
def calRev : GTFSCalendar :=
  { service_id := "REV", monday := true, tuesday := true, wednesday := true,
    thursday := true, friday := true, saturday := true, sunday := true,
    start_date := "20240710", end_date := "20240701" }

/-- Dataset holding only the reversed-range calendar. -/
def gRev : GTFSData :=
  { calendars := [calRev], calendarDates := [], trips := [], routes := [] }

/-- Dataset with a one-day reversed range, for the date-range claim. -/
def gRev2 : GTFSData :=
  { calendars := [{ service_id := "A", monday := true, tuesday := true,
                    wednesday := true, thursday := true, friday := true,
                    saturday := true, sunday := true,
                    start_date := "20240102", end_date := "20240101" }],
    calendarDates := [], trips := [], routes := [] }

/-- Calendar whose start date does not parse. -/
def calBad : GTFSCalendar :=
  { service_id := "BAD", monday := true, tuesday := true, wednesday := true,
    thursday := true, friday := true, saturday := true, sunday := true,
    start_date := "banana01", end_date := "20241231" }

/-- Dataset with a duplicated calendar row, for the validator claim. -/
def gDup : GTFSData :=
  { calendars := [calWD, calWD], calendarDates := [], trips := [], routes := [] }

/-- First of two route rows sharing the id R1. -/
def routeFirst : GTFSRoute := { route_id := "R1", route_short_name := some "first" }

/-- Second of two route rows sharing the id R1. -/
def routeSecond : GTFSRoute := { route_id := "R1", route_short_name := some "second" }

/-- Two routes sharing one id, plus a trip referencing it, for the
duplicate-route claim. -/
def gDupRoutes : GTFSData :=
  { calendars := [calWD], calendarDates := [],
    trips := [{ route_id := "R1", service_id := "WD", trip_id := "T1" }],
    routes := [routeFirst, routeSecond] }

/-- The §8 projection scenario's output trip: T1 with route R1 attached. -/
def tripT1WD : TripWithRoute :=
  { route_id := "R1", service_id := "WD", trip_id := "T1",
    route := some { route_id := "R1", route_short_name := some "1" } }

/-- The projected trip of `gDupRoutes`: the later route row wins. -/
def tripT1second : TripWithRoute :=
  { route_id := "R1", service_id := "WD", trip_id := "T1", route := some routeSecond }

theorem find?_eq_head?_filter {α : Type} (p : α → Bool) (l : List α) :
    l.find? p = (l.filter p).head? := by
  induction l with
  | nil => rfl
  | cons x xs ih =>
    by_cases h : p x = true
    · rw [List.find?_cons_of_pos _ h, List.filter_cons_of_pos h]
      rfl
    · rw [List.find?_cons_of_neg _ h, List.filter_cons_of_neg h]
      exact ih

theorem find?_middle_false {α : Type} (p : α → Bool) (l₁ l₂ : List α) (x : α)
    (h : ¬p x = true) :
    (l₁ ++ x :: l₂).find? p = (l₁ ++ l₂).find? p := by
  rw [List.find?_append, List.find?_append, List.find?_cons_of_neg _ h]

theorem activeStatusForCalendar_eq_spec (cds : List GTFSCalendarDate)
    (ds : String) (date : Nat) (c : GTFSCalendar) :
    activeStatusForCalendar cds ds date c =
      (specRowResult (cds.find? (matchesException c.service_id ds))
        (baseActive c date) c).1 := by
  unfold activeStatusForCalendar specRowResult
  cases cds.find? (matchesException c.service_id ds) with
  | none => rfl
  | some e =>
    by_cases h1 : e.exception_type = 1
    · simp [h1, addedStatus]
    · by_cases h2 : e.exception_type = 2 <;> simp [h1, h2]

theorem excludedStatusForCalendar_eq_spec (cds : List GTFSCalendarDate)
    (ds : String) (date : Nat) (c : GTFSCalendar) :
    excludedStatusForCalendar cds ds date c =
      (specRowResult (cds.find? (matchesException c.service_id ds))
        (baseActive c date) c).2 := by
  unfold excludedStatusForCalendar specRowResult
  cases cds.find? (matchesException c.service_id ds) with
  | none => rfl
  | some e =>
    by_cases h1 : e.exception_type = 1
    · simp [h1]
    · by_cases h2 : e.exception_type = 2 <;>
        by_cases h3 : baseActive c date = true <;> simp [h1, h2, h3, removedStatus]

theorem routeMapGet_go_skip (routes : List GTFSRoute) (rid : String) :
    ∀ acc : Option GTFSRoute, (∀ r ∈ routes, r.route_id ≠ rid) →
      routes.foldl (fun acc r => if r.route_id == rid then some r else acc) acc = acc := by
  induction routes with
  | nil => intro acc _; rfl
  | cons r rs ih =>
    intro acc h
    rw [List.foldl_cons, if_neg (by simpa using h r (by simp))]
    exact ih acc (fun r2 hr2 => h r2 (by simp [hr2]))

theorem routeMapGet_go_some (routes : List GTFSRoute) (rid : String) :
    ∀ (acc : Option GTFSRoute) (r : GTFSRoute),
      routes.foldl (fun acc r => if r.route_id == rid then some r else acc) acc = some r →
      (r ∈ routes ∧ r.route_id = rid) ∨ acc = some r := by
  induction routes with
  | nil => intro acc r h; exact Or.inr h
  | cons x xs ih =>
    intro acc r h
    rw [List.foldl_cons] at h
    rcases ih _ r h with ⟨hm, hid⟩ | hacc
    · exact Or.inl ⟨by simp [hm], hid⟩
    · by_cases hx : x.route_id = rid
      · rw [if_pos (by simpa using hx)] at hacc
        have hxr : x = r := by simpa using hacc
        exact Or.inl ⟨by simp [← hxr], hxr ▸ hx⟩
      · rw [if_neg (by simpa using hx)] at hacc
        exact Or.inr hacc

theorem routeMapGet_go_none (routes : List GTFSRoute) (rid : String) :
    ∀ acc : Option GTFSRoute,
      routes.foldl (fun acc r => if r.route_id == rid then some r else acc) acc = none ↔
        acc = none ∧ ∀ r ∈ routes, r.route_id ≠ rid := by
  induction routes with
  | nil => intro acc; simp
  | cons x xs ih =>
    intro acc
    rw [List.foldl_cons, ih]
    by_cases hx : x.route_id = rid
    · rw [if_pos (by simpa using hx)]
      simp [hx]
    · rw [if_neg (by simpa using hx)]
      constructor
      · rintro ⟨h1, h2⟩
        exact ⟨h1, by simpa [hx] using h2⟩
      · rintro ⟨h1, h2⟩
        exact ⟨h1, fun r hr => h2 r (by simp [hr])⟩

theorem routeMapGet_eq_none_iff (routes : List GTFSRoute) (rid : String) :
    routeMapGet routes rid = none ↔ ∀ r ∈ routes, r.route_id ≠ rid := by
  unfold routeMapGet
  rw [routeMapGet_go_none]
  simp

theorem routeMapGet_eq_some (routes : List GTFSRoute) (rid : String) (r : GTFSRoute)
    (h : routeMapGet routes rid = some r) : r ∈ routes ∧ r.route_id = rid := by
  rcases routeMapGet_go_some routes rid none r h with hgood | hbad
  · exact hgood
  · exact absurd hbad (by simp)

theorem routeMapGet_last (pre post : List GTFSRoute) (r : GTFSRoute) (rid : String)
    (hr : r.route_id = rid) (hpost : ∀ r2 ∈ post, r2.route_id ≠ rid) :
    routeMapGet (pre ++ r :: post) rid = some r := by
  unfold routeMapGet
  rw [List.foldl_append, List.foldl_cons, if_pos (by simpa using hr)]
  exact routeMapGet_go_skip post rid (some r) hpost

theorem mem_foldl_insertFirst (arr : List String) :
    ∀ (acc : List String) (x : String),
      x ∈ arr.foldl insertFirst acc ↔ x ∈ acc ∨ x ∈ arr := by
  induction arr with
  | nil => simp
  | cons y ys ih =>
    intro acc x
    rw [List.foldl_cons]
    by_cases h : acc.contains y = true
    · rw [show insertFirst acc y = acc from by unfold insertFirst; rw [if_pos h], ih]
      have hy : y ∈ acc := by simpa [List.contains] using h
      constructor
      · rintro (hx | hx)
        · exact Or.inl hx
        · exact Or.inr (by simp [hx])
      · rintro (hx | hx)
        · exact Or.inl hx
        · rcases List.mem_cons.mp hx with rfl | hx
          · exact Or.inl hy
          · exact Or.inr hx
    · rw [show insertFirst acc y = acc ++ [y] from by unfold insertFirst; rw [if_neg h], ih]
      simp only [List.mem_append, List.mem_singleton, List.mem_cons]
      tauto

theorem nodup_foldl_insertFirst (arr : List String) :
    ∀ acc : List String, acc.Nodup → (arr.foldl insertFirst acc).Nodup := by
  induction arr with
  | nil => intro acc h; exact h
  | cons y ys ih =>
    intro acc hacc
    rw [List.foldl_cons]
    by_cases h : acc.contains y = true
    · rw [show insertFirst acc y = acc from by unfold insertFirst; rw [if_pos h]]
      exact ih acc hacc
    · rw [show insertFirst acc y = acc ++ [y] from by unfold insertFirst; rw [if_neg h]]
      refine ih _ ?_
      have hy : y ∉ acc := by simpa [List.contains] using h
      simp [List.nodup_append, hacc, hy]

theorem foldl_insertFirst_split (arr : List String) :
    ∀ acc : List String, ∃ t, arr.foldl insertFirst acc = acc ++ t ∧ List.Sublist t arr := by
  induction arr with
  | nil => intro acc; exact ⟨[], by simp, List.Sublist.refl []⟩
  | cons y ys ih =>
    intro acc
    rw [List.foldl_cons]
    by_cases h : acc.contains y = true
    · rw [show insertFirst acc y = acc from by unfold insertFirst; rw [if_pos h]]
      rcases ih acc with ⟨t, ht, hsub⟩
      exact ⟨t, ht, hsub.cons y⟩
    · rw [show insertFirst acc y = acc ++ [y] from by unfold insertFirst; rw [if_neg h]]
      rcases ih (acc ++ [y]) with ⟨t, ht, hsub⟩
      exact ⟨y :: t, by simpa using ht, hsub.cons₂ y⟩

theorem mem_mapKeysInOrder (arr : List String) (x : String) :
    x ∈ mapKeysInOrder arr ↔ x ∈ arr := by
  unfold mapKeysInOrder
  rw [mem_foldl_insertFirst]
  simp

theorem nodup_mapKeysInOrder (arr : List String) : (mapKeysInOrder arr).Nodup :=
  nodup_foldl_insertFirst arr [] List.nodup_nil

theorem mapKeysInOrder_sublist (arr : List String) : List.Sublist (mapKeysInOrder arr) arr := by
  rcases foldl_insertFirst_split arr [] with ⟨t, ht, hsub⟩
  unfold mapKeysInOrder
  rw [ht]
  simpa using hsub

theorem countOcc_pos_iff (arr : List String) (x : String) :
    0 < countOcc arr x ↔ x ∈ arr := by
  unfold countOcc
  rw [List.length_pos]
  constructor
  · intro h
    rcases List.exists_mem_of_ne_nil _ h with ⟨y, hy⟩
    rcases List.mem_filter.mp hy with ⟨hmem, heq⟩
    exact (by simpa using heq : y = x) ▸ hmem
  · intro h hnil
    have : x ∈ arr.filter (fun y => y == x) := List.mem_filter.mpr ⟨h, by simp⟩
    simp [hnil] at this

theorem nodup_findDuplicates (arr : List String) : (findDuplicates arr).Nodup :=
  (nodup_mapKeysInOrder arr).filter _

theorem findDuplicates_sublist_keys (arr : List String) :
    List.Sublist (findDuplicates arr) (mapKeysInOrder arr) :=
  List.filter_sublist _

theorem mem_findDuplicates (arr : List String) (x : String) :
    x ∈ findDuplicates arr ↔ 2 ≤ countOcc arr x := by
  unfold findDuplicates
  rw [List.mem_filter, mem_mapKeysInOrder]
  constructor
  · rintro ⟨_, h⟩
    simpa using h
  · intro h
    refine ⟨(countOcc_pos_iff arr x).mp (by omega), by simpa using h⟩

theorem foldl_pair_updMin_updMax_fst {α : Type} (f h : α → Option Nat) (l : List α) :
    ∀ st : Option (Option Nat) × Option (Option Nat),
      (l.foldl (fun st x => (updMin st.1 (f x), updMax st.2 (h x))) st).1 =
        l.foldl (fun m x => updMin m (f x)) st.1 := by
  induction l with
  | nil => intro st; rfl
  | cons x xs ih => intro st; rw [List.foldl_cons, List.foldl_cons, ih]

theorem foldl_pair_updMin_updMax_snd {α : Type} (f h : α → Option Nat) (l : List α) :
    ∀ st : Option (Option Nat) × Option (Option Nat),
      (l.foldl (fun st x => (updMin st.1 (f x), updMax st.2 (h x))) st).2 =
        l.foldl (fun m x => updMax m (h x)) st.2 := by
  induction l with
  | nil => intro st; rfl
  | cons x xs ih => intro st; rw [List.foldl_cons, List.foldl_cons, ih]

theorem foldl_updMin_filterMap {α : Type} (f : α → Option Nat) (l : List α)
    (hl : ∀ x ∈ l, (f x).isSome) :
    ∀ st, l.foldl (fun m x => updMin m (f x)) st =
      (l.filterMap f).foldl (fun m v => updMin m (some v)) st := by
  induction l with
  | nil => intro st; rfl
  | cons x xs ih =>
    intro st
    rcases Option.isSome_iff_exists.mp (hl x (by simp)) with ⟨v, hv⟩
    simp only [List.foldl_cons, List.filterMap_cons, hv]
    exact ih (fun y hy => hl y (by simp [hy])) _

theorem foldl_updMax_filterMap {α : Type} (f : α → Option Nat) (l : List α)
    (hl : ∀ x ∈ l, (f x).isSome) :
    ∀ st, l.foldl (fun m x => updMax m (f x)) st =
      (l.filterMap f).foldl (fun m v => updMax m (some v)) st := by
  induction l with
  | nil => intro st; rfl
  | cons x xs ih =>
    intro st
    rcases Option.isSome_iff_exists.mp (hl x (by simp)) with ⟨v, hv⟩
    simp only [List.foldl_cons, List.filterMap_cons, hv]
    exact ih (fun y hy => hl y (by simp [hy])) _

theorem updMin_some_some (a v : Nat) :
    updMin (some (some a)) (some v) = some (some (min a v)) := by
  by_cases h : v < a <;> simp [updMin, dateLt, h] <;> omega

theorem updMax_some_some (a v : Nat) :
    updMax (some (some a)) (some v) = some (some (max a v)) := by
  by_cases h : a < v <;> simp [updMax, dateGt, h] <;> omega

theorem foldl_updMin_somes (vs : List Nat) :
    ∀ a : Nat, vs.foldl (fun m v => updMin m (some v)) (some (some a)) =
      some (some (vs.foldl min a)) := by
  induction vs with
  | nil => intro a; rfl
  | cons v rest ih =>
    intro a
    rw [List.foldl_cons, updMin_some_some, ih, List.foldl_cons]

theorem foldl_updMax_somes (vs : List Nat) :
    ∀ a : Nat, vs.foldl (fun m v => updMax m (some v)) (some (some a)) =
      some (some (vs.foldl max a)) := by
  induction vs with
  | nil => intro a; rfl
  | cons v rest ih =>
    intro a
    rw [List.foldl_cons, updMax_some_some, ih, List.foldl_cons]

theorem foldl_min_le (vs : List Nat) :
    ∀ a, vs.foldl min a ≤ a ∧ ∀ v ∈ vs, vs.foldl min a ≤ v := by
  induction vs with
  | nil => intro a; exact ⟨Nat.le_refl a, by simp⟩
  | cons v rest ih =>
    intro a
    rw [List.foldl_cons]
    rcases ih (min a v) with ⟨h1, h2⟩
    refine ⟨Nat.le_trans h1 (Nat.min_le_left a v), ?_⟩
    intro w hw
    rcases List.mem_cons.mp hw with rfl | hw
    · exact Nat.le_trans h1 (Nat.min_le_right a w)
    · exact h2 w hw

theorem foldl_min_mem (vs : List Nat) :
    ∀ a, vs.foldl min a = a ∨ vs.foldl min a ∈ vs := by
  induction vs with
  | nil => intro a; exact Or.inl rfl
  | cons v rest ih =>
    intro a
    rw [List.foldl_cons]
    rcases ih (min a v) with h | h
    · rw [h]
      rcases Nat.le_total a v with hav | hva
      · exact Or.inl (Nat.min_eq_left hav)
      · exact Or.inr (by simp [Nat.min_eq_right hva])
    · exact Or.inr (by simp [h])

theorem foldl_max_ge (vs : List Nat) :
    ∀ a, a ≤ vs.foldl max a ∧ ∀ v ∈ vs, v ≤ vs.foldl max a := by
  induction vs with
  | nil => intro a; exact ⟨Nat.le_refl a, by simp⟩
  | cons v rest ih =>
    intro a
    rw [List.foldl_cons]
    rcases ih (max a v) with ⟨h1, h2⟩
    refine ⟨Nat.le_trans (Nat.le_max_left a v) h1, ?_⟩
    intro w hw
    rcases List.mem_cons.mp hw with rfl | hw
    · exact Nat.le_trans (Nat.le_max_right a w) h1
    · exact h2 w hw

theorem foldl_max_mem (vs : List Nat) :
    ∀ a, vs.foldl max a = a ∨ vs.foldl max a ∈ vs := by
  induction vs with
  | nil => intro a; exact Or.inl rfl
  | cons v rest ih =>
    intro a
    rw [List.foldl_cons]
    rcases ih (max a v) with h | h
    · rw [h]
      rcases Nat.le_total a v with hav | hva
      · exact Or.inr (by simp [Nat.max_eq_right hav])
      · exact Or.inl (Nat.max_eq_left hva)
    · exact Or.inr (by simp [h])

theorem filterMap_ne_nil_of_isSome {α : Type} (f : α → Option Nat) (l : List α)
    (hl : ∀ x ∈ l, (f x).isSome) (hne : l ≠ []) : l.filterMap f ≠ [] := by
  cases l with
  | nil => exact absurd rfl hne
  | cons x xs =>
    rcases Option.isSome_iff_exists.mp (hl x (by simp)) with ⟨v, hv⟩
    simp [List.filterMap_cons, hv]

theorem foldl_updMin_from_none (vs : List Nat) (v : Nat) (rest : List Nat)
    (hvs : vs = v :: rest) :
    vs.foldl (fun m w => updMin m (some w)) none = some (some (rest.foldl min v)) := by
  subst hvs
  rw [List.foldl_cons]
  have h0 : updMin none (some v) = some (some v) := rfl
  rw [h0, foldl_updMin_somes]

theorem foldl_updMax_from_none (vs : List Nat) (v : Nat) (rest : List Nat)
    (hvs : vs = v :: rest) :
    vs.foldl (fun m w => updMax m (some w)) none = some (some (rest.foldl max v)) := by
  subst hvs
  rw [List.foldl_cons]
  have h0 : updMax none (some v) = some (some v) := rfl
  rw [h0, foldl_updMax_somes]

theorem getDateRange_spec (g : GTFSData)
    (hcal : ∀ c ∈ g.calendars,
      (parseGTFSDate c.start_date).isSome ∧ (parseGTFSDate c.end_date).isSome)
    (hcd : ∀ cd ∈ g.calendarDates, (parseGTFSDate cd.date).isSome)
    (hne : g.calendars ≠ [] ∨ g.calendarDates ≠ []) :
    ∃ mn mx, getDateRange g = some (some mn, some mx) ∧
      mn ∈ minVals g ∧ (∀ v ∈ minVals g, mn ≤ v) ∧
      mx ∈ maxVals g ∧ (∀ v ∈ maxVals g, v ≤ mx) := by
  have hminne : minVals g ≠ [] := by
    unfold minVals
    rcases hne with h | h
    · intro hc
      rcases List.append_eq_nil.mp hc with ⟨h1, _⟩
      exact filterMap_ne_nil_of_isSome _ _ (fun c hcm => (hcal c hcm).1) h h1
    · intro hc
      rcases List.append_eq_nil.mp hc with ⟨_, h2⟩
      exact filterMap_ne_nil_of_isSome _ _ hcd h h2
  have hmaxne : maxVals g ≠ [] := by
    unfold maxVals
    rcases hne with h | h
    · intro hc
      rcases List.append_eq_nil.mp hc with ⟨h1, _⟩
      exact filterMap_ne_nil_of_isSome _ _ (fun c hcm => (hcal c hcm).2) h h1
    · intro hc
      rcases List.append_eq_nil.mp hc with ⟨_, h2⟩
      exact filterMap_ne_nil_of_isSome _ _ hcd h h2
  obtain ⟨v, rest, hvs⟩ : ∃ v rest, minVals g = v :: rest := by
    cases h : minVals g with
    | nil => exact absurd h hminne
    | cons a b => exact ⟨a, b, rfl⟩
  obtain ⟨w, restw, hws⟩ : ∃ w restw, maxVals g = w :: restw := by
    cases h : maxVals g with
    | nil => exact absurd h hmaxne
    | cons a b => exact ⟨a, b, rfl⟩
  have hfst :
      (g.calendarDates.foldl
        (fun st cd => (updMin st.1 (parseGTFSDate cd.date),
                       updMax st.2 (parseGTFSDate cd.date)))
        (g.calendars.foldl
          (fun st c => (updMin st.1 (parseGTFSDate c.start_date),
                        updMax st.2 (parseGTFSDate c.end_date)))
          (none, none))).1 = some (some (rest.foldl min v)) := by
    rw [foldl_pair_updMin_updMax_fst, foldl_pair_updMin_updMax_fst,
      foldl_updMin_filterMap _ _ (fun c hcm => (hcal c hcm).1),
      foldl_updMin_filterMap _ _ hcd, ← List.foldl_append, ← minVals]
    exact foldl_updMin_from_none _ v rest hvs
  have hsnd :
      (g.calendarDates.foldl
        (fun st cd => (updMin st.1 (parseGTFSDate cd.date),
                       updMax st.2 (parseGTFSDate cd.date)))
        (g.calendars.foldl
          (fun st c => (updMin st.1 (parseGTFSDate c.start_date),
                        updMax st.2 (parseGTFSDate c.end_date)))
          (none, none))).2 = some (some (restw.foldl max w)) := by
    rw [foldl_pair_updMin_updMax_snd, foldl_pair_updMin_updMax_snd,
      foldl_updMax_filterMap _ _ (fun c hcm => (hcal c hcm).2),
      foldl_updMax_filterMap _ _ hcd, ← List.foldl_append, ← maxVals]
    exact foldl_updMax_from_none _ w restw hws
  refine ⟨rest.foldl min v, restw.foldl max w, ?_, ?_, ?_, ?_, ?_⟩
  · unfold getDateRange
    rw [if_neg (by
      rcases hne with h | h <;> simp [List.isEmpty_iff, h])]
    have hpair :
        (g.calendarDates.foldl
          (fun st cd => (updMin st.1 (parseGTFSDate cd.date),
                         updMax st.2 (parseGTFSDate cd.date)))
          (g.calendars.foldl
            (fun st c => (updMin st.1 (parseGTFSDate c.start_date),
                          updMax st.2 (parseGTFSDate c.end_date)))
            (none, none))) =
          (some (some (rest.foldl min v)), some (some (restw.foldl max w))) :=
      Prod.ext hfst hsnd
    simp only [hpair]
  · rw [hvs]
    rcases foldl_min_mem rest v with h | h
    · simp [h]
    · simp [h]
  · intro u hu
    rw [hvs] at hu
    rcases List.mem_cons.mp hu with rfl | hu
    · exact (foldl_min_le rest u).1
    · exact (foldl_min_le rest v).2 u hu
  · rw [hws]
    rcases foldl_max_mem restw w with h | h
    · simp [h]
    · simp [h]
  · intro u hu
    rw [hws] at hu
    rcases List.mem_cons.mp hu with rfl | hu
    · exact (foldl_max_ge restw u).1
    · exact (foldl_max_ge restw w).2 u hu

theorem specRowResult_snd_eq_some (exc : Option GTFSCalendarDate) (base : Bool)
    (c : GTFSCalendar) (s : CalendarDayStatus) :
    (specRowResult exc base c).2 = some s ↔
      s = removedStatus c ∧ base = true ∧
      ∃ e, exc = some e ∧ e.exception_type = 2 := by
  cases exc with
  | none => simp [specRowResult]
  | some e =>
    by_cases h1 : e.exception_type = 1
    · simp [specRowResult, h1]
    · by_cases h2 : e.exception_type = 2
      · cases base <;> simp [specRowResult, h1, h2, eq_comm]
      · simp [specRowResult, h1, h2]

theorem excludedStatusForCalendar_eq_some (cds : List GTFSCalendarDate)
    (ds : String) (date : Nat) (c : GTFSCalendar) (s : CalendarDayStatus) :
    excludedStatusForCalendar cds ds date c = some s ↔
      s = removedStatus c ∧ baseActive c date = true ∧
      ∃ e, cds.find? (matchesException c.service_id ds) = some e ∧
        e.exception_type = 2 := by
  rw [excludedStatusForCalendar_eq_spec]
  exact specRowResult_snd_eq_some _ _ _ _

theorem getTripsForDate_elem (g : GTFSData) (date : Nat) (tw : TripWithRoute)
    (htw : tw ∈ getTripsForDate g date) :
    tw.route = routeMapGet g.routes tw.route_id ∧
    tw.toGTFSTrip ∈ g.trips ∧
    (getActiveServiceIds g date).contains tw.service_id = true := by
  simp only [getTripsForDate] at htw
  rcases List.mem_map.mp htw with ⟨t, ht, rfl⟩
  rcases List.mem_filter.mp ht with ⟨htmem, hpred⟩
  exact ⟨rfl, htmem, hpred⟩

/-- C1: for every dataset and date, each calendar row is classified,
independently of the other rows, by the decision table of §4.1: with no
matching exception the row yields an active non-exception entry iff it is
base-active, an Added exception yields an active exception entry
regardless of base activity, a Removed exception yields an excluded entry
iff the row is base-active, and the matching exception is the first row
of the exception collection, in its original order, that matches the
calendar's service id and the formatted target date. -/
theorem resolve_matches_decision_table (g : GTFSData) (date : Nat) :
    (∀ sid : String,
      g.calendarDates.find? (matchesException sid (formatGTFSDate date)) =
        (g.calendarDates.filter (matchesException sid (formatGTFSDate date))).head?) ∧
    getCalendarStatusForDate g date =
      (g.calendars.filterMap (fun c =>
          (specRowResult
            (g.calendarDates.find? (matchesException c.service_id (formatGTFSDate date)))
            (baseActive c date) c).1) ++
        g.calendarDates.filterMap
          (exceptionOnlyStatus (g.calendars.map (fun c => c.service_id))
            (formatGTFSDate date)),
       g.calendars.filterMap (fun c =>
          (specRowResult
            (g.calendarDates.find? (matchesException c.service_id (formatGTFSDate date)))
            (baseActive c date) c).2)) := by
  refine ⟨fun sid => find?_eq_head?_filter _ _, ?_⟩
  simp only [getCalendarStatusForDate]
  rw [List.filterMap_congr (fun c _ => activeStatusForCalendar_eq_spec
        g.calendarDates (formatGTFSDate date) date c),
      List.filterMap_congr (fun c _ => excludedStatusForCalendar_eq_spec
        g.calendarDates (formatGTFSDate date) date c)]

/-- Witness for C1: on the §8 dataset the matching exception for WD on
2024-07-04 is the first matching row of the exception collection. -/
theorem resolve_matches_decision_table_witness :
    gEx.calendarDates.find? (matchesException "WD" (formatGTFSDate dJul4)) =
      (gEx.calendarDates.filter (matchesException "WD" (formatGTFSDate dJul4))).head? :=
  (resolve_matches_decision_table gEx dJul4).1 "WD"

/-- C7: every excluded entry corresponds to a calendar row that is
base-active on the date and whose first matching exception is Removed;
exclusions are never created for base-inactive rows. -/
theorem excluded_only_when_base_active (g : GTFSData) (date : Nat)
    (s : CalendarDayStatus) (hs : s ∈ (getCalendarStatusForDate g date).2) :
    ∃ c ∈ g.calendars, s = removedStatus c ∧ baseActive c date = true ∧
      ∃ e, g.calendarDates.find?
          (matchesException c.service_id (formatGTFSDate date)) = some e ∧
        e.exception_type = 2 := by
  simp only [getCalendarStatusForDate] at hs
  rcases List.mem_filterMap.mp hs with ⟨c, hc, hsome⟩
  rcases (excludedStatusForCalendar_eq_some _ _ _ _ _).mp hsome with
    ⟨hrec, hba, e, hfind, h2⟩
  exact ⟨c, hc, hrec, hba, e, hfind, h2⟩

/-- Witness for C7: the §8 removal scenario's excluded entry for WD on
2024-07-04 comes from a base-active row with a Removed first match. -/
theorem excluded_only_when_base_active_witness :
    ∃ c ∈ gEx.calendars, removedStatus calWD = removedStatus c ∧
      baseActive c dJul4 = true ∧
      ∃ e, gEx.calendarDates.find?
          (matchesException c.service_id (formatGTFSDate dJul4)) = some e ∧
        e.exception_type = 2 :=
  excluded_only_when_base_active gEx dJul4 (removedStatus calWD) (by decide)

/-- C8: resolveBase returns exactly the base-active calendar rows as
non-exception active statuses and is independent of the exception
collection. -/
theorem resolveBase_ignores_exceptions (g : GTFSData) (date : Nat) :
    (∀ cds : List GTFSCalendarDate,
      getBaseCalendarsForDate { g with calendarDates := cds } date =
        getBaseCalendarsForDate g date) ∧
    (∀ s : CalendarDayStatus,
      s ∈ getBaseCalendarsForDate g date ↔
        ∃ c ∈ g.calendars, baseActive c date = true ∧ s = baseStatus c) := by
  refine ⟨fun cds => rfl, fun s => ?_⟩
  unfold getBaseCalendarsForDate
  rw [List.mem_filterMap]
  constructor
  · rintro ⟨c, hc, hsome⟩
    by_cases hb : (isDateInCalendarRange c date && isCalendarActiveOnDayOfWeek c date) = true
    · rw [if_pos hb] at hsome
      exact ⟨c, hc, hb, ((by simpa using hsome : _ = s).symm : s = baseStatus c)⟩
    · rw [if_neg hb] at hsome; simp at hsome
  · rintro ⟨c, hc, hb, rfl⟩
    refine ⟨c, hc, ?_⟩
    have hb2 : (isDateInCalendarRange c date &&
        isCalendarActiveOnDayOfWeek c date) = true := hb
    rw [if_pos hb2]
    rfl

/-- Witness for C8: the WD calendar is reported base-active on 2024-07-04
even though that date carries a Removed exception for it. -/
theorem resolveBase_ignores_exceptions_witness :
    baseStatus calWD ∈ getBaseCalendarsForDate gEx dJul4 :=
  ((resolveBase_ignores_exceptions gEx dJul4).2 (baseStatus calWD)).mpr
    ⟨calWD, by decide, by decide, rfl⟩

/-- C2: an exception row for the target date whose service id appears in
no calendar row yields, when Added, an active status with isException
true and no calendar back-reference; when Removed, it contributes
nothing: removing that row from the exception collection leaves the
resolution unchanged. -/
theorem exception_only_services (g : GTFSData) (date : Nat)
    (pre post : List GTFSCalendarDate) (cd : GTFSCalendarDate)
    (hsplit : g.calendarDates = pre ++ cd :: post)
    (hdate : cd.date = formatGTFSDate date)
    (habsent : ∀ c ∈ g.calendars, c.service_id ≠ cd.service_id) :
    (cd.exception_type = 1 →
      exceptionOnlyAddedStatus cd.service_id ∈ (getCalendarStatusForDate g date).1) ∧
    (cd.exception_type = 2 →
      getCalendarStatusForDate g date =
        getCalendarStatusForDate { g with calendarDates := pre ++ post } date) := by
  have hnotin : (g.calendars.map (fun c => c.service_id)).contains cd.service_id = false := by
    rw [Bool.eq_false_iff]
    intro hcontra
    have hmem : cd.service_id ∈ g.calendars.map (fun c => c.service_id) := by
      simpa [List.contains] using hcontra
    rcases List.mem_map.mp hmem with ⟨c, hc, hcs⟩
    exact habsent c hc hcs
  constructor
  · intro h1
    have hmem : cd ∈ g.calendarDates := by
      rw [hsplit]
      exact List.mem_append.mpr (Or.inr (by simp))
    have hval : exceptionOnlyStatus (g.calendars.map (fun c => c.service_id))
        (formatGTFSDate date) cd = some (exceptionOnlyAddedStatus cd.service_id) := by
      simp [exceptionOnlyStatus, exceptionOnlyAddedStatus, hdate, h1]
      exact fun x hx => habsent x hx
    simp only [getCalendarStatusForDate]
    exact List.mem_append.mpr (Or.inr (List.mem_filterMap.mpr ⟨cd, hmem, hval⟩))
  · intro h2
    have hfindeq : ∀ c : GTFSCalendar, c ∈ g.calendars →
        (pre ++ cd :: post).find? (matchesException c.service_id (formatGTFSDate date)) =
          (pre ++ post).find? (matchesException c.service_id (formatGTFSDate date)) := by
      intro c hc
      refine find?_middle_false _ _ _ _ ?_
      have hne : cd.service_id ≠ c.service_id := fun h => habsent c hc h.symm
      unfold matchesException
      simp [hne]
    have hactive : ∀ c ∈ g.calendars,
        activeStatusForCalendar (pre ++ cd :: post) (formatGTFSDate date) date c =
          activeStatusForCalendar (pre ++ post) (formatGTFSDate date) date c := by
      intro c hc
      unfold activeStatusForCalendar
      rw [hfindeq c hc]
    have hexcluded : ∀ c ∈ g.calendars,
        excludedStatusForCalendar (pre ++ cd :: post) (formatGTFSDate date) date c =
          excludedStatusForCalendar (pre ++ post) (formatGTFSDate date) date c := by
      intro c hc
      unfold excludedStatusForCalendar
      rw [hfindeq c hc]
    have hskip : exceptionOnlyStatus (g.calendars.map (fun c => c.service_id))
        (formatGTFSDate date) cd = none := by
      simp [exceptionOnlyStatus, hdate, h2]
    simp only [getCalendarStatusForDate, hsplit]
    rw [List.filterMap_congr hactive, List.filterMap_congr hexcluded]
    simp only [List.filterMap_append, List.filterMap_cons, hskip]

/-- Witness for C2: the §8 HOLIDAY scenario — the exception-only Added
row emits an active status with no calendar back-reference. -/
theorem exception_only_services_witness :
    exceptionOnlyAddedStatus "HOLIDAY" ∈ (getCalendarStatusForDate gEx dJul4).1 :=
  (exception_only_services gEx dJul4 [excRemoved] [] excHoliday rfl (by decide)
    (by decide)).1 rfl

/-- C3 counterexample: the reversed-range calendar (start_date after
end_date, both parseable) does match 2024-07-05 and contributes an active
entry, because date-fns isWithinInterval sorts its bounds. -/
theorem reversed_range_matches :
    isDateInCalendarRange calRev (rataDie 2024 7 5) = true ∧
    getCalendarStatusForDate gRev (rataDie 2024 7 5) = ([baseStatus calRev], []) := by
  decide

/-- C3 (amended): resolution is total and never fails; a calendar row
whose start or end date does not parse never matches any date (inRange
false) and contributes no active or excluded entry when no exception
matches it; but a row with parseable start_date after end_date matches
exactly the dates of the reversed interval, since the interval bounds are
sorted before comparison. -/
theorem malformed_dates_never_match (c : GTFSCalendar) (date : Nat) :
    ((parseGTFSDate c.start_date = none ∨ parseGTFSDate c.end_date = none) →
      isDateInCalendarRange c date = false ∧
      (∀ (cds : List GTFSCalendarDate) (ds : String),
        cds.find? (matchesException c.service_id ds) = none →
        activeStatusForCalendar cds ds date c = none ∧
        excludedStatusForCalendar cds ds date c = none)) ∧
    (∀ s e : Nat, parseGTFSDate c.start_date = some s →
      parseGTFSDate c.end_date = some e →
      isDateInCalendarRange c date = (decide (min s e ≤ date) && decide (date ≤ max s e))) := by
  constructor
  · intro h
    have hrange : isDateInCalendarRange c date = false := by
      unfold isDateInCalendarRange isWithinInterval
      rcases h with h | h
      · rw [h]
      · rw [h]
        cases parseGTFSDate c.start_date <;> rfl
    refine ⟨hrange, fun cds ds hfind => ?_⟩
    have hbase : baseActive c date = false := by
      unfold baseActive
      rw [hrange]
      rfl
    constructor
    · unfold activeStatusForCalendar
      rw [hfind, hbase]
      rfl
    · unfold excludedStatusForCalendar
      rw [hfind]
  · intro s e hs he
    unfold isDateInCalendarRange isWithinInterval
    rw [hs, he]

/-- Witness for the amended C3: a row with unparseable start date has
inRange false and contributes nothing, and a valid-bounds row matches by
the sorted-bounds comparison. -/
theorem malformed_dates_never_match_witness :
    isDateInCalendarRange calBad 739071 = false ∧
    activeStatusForCalendar [] "20240704" 739071 calBad = none ∧
    excludedStatusForCalendar [] "20240704" 739071 calBad = none ∧
    isDateInCalendarRange calRev 739072 =
      (decide (min (rataDie 2024 7 10) (rataDie 2024 7 1) ≤ 739072) &&
        decide (739072 ≤ max (rataDie 2024 7 10) (rataDie 2024 7 1))) := by
  have h := (malformed_dates_never_match calBad 739071).1 (Or.inl (by decide))
  have h2 := (h.2 [] "20240704" (by decide))
  exact ⟨h.1, h2.1, h2.2,
    (malformed_dates_never_match calRev 739072).2 _ _ (by decide) (by decide)⟩

/-- C6: project returns exactly the trips whose service id belongs to the
active service-id set computed by resolve for the date, in input order,
attaching the looked-up route — absent exactly when no route shares the
trip's route id — and in particular never a trip outside the active set. -/
theorem project_active_trips (g : GTFSData) (date : Nat) :
    (getTripsForDate g date).map (fun tw => tw.toGTFSTrip) =
      g.trips.filter (fun t => (getActiveServiceIds g date).contains t.service_id) ∧
    List.Sublist ((getTripsForDate g date).map (fun tw => tw.toGTFSTrip)) g.trips ∧
    (∀ tw ∈ getTripsForDate g date,
      tw.service_id ∈ getActiveServiceIds g date ∧
      tw.route = routeMapGet g.routes tw.route_id ∧
      (tw.route = none ↔ ∀ r ∈ g.routes, r.route_id ≠ tw.route_id) ∧
      (∀ r : GTFSRoute, tw.route = some r → r ∈ g.routes ∧ r.route_id = tw.route_id)) ∧
    (∀ t ∈ g.trips, (getActiveServiceIds g date).contains t.service_id = true →
      ∃ tw ∈ getTripsForDate g date, tw.toGTFSTrip = t) := by
  have hmap : (getTripsForDate g date).map (fun tw => tw.toGTFSTrip) =
      g.trips.filter (fun t => (getActiveServiceIds g date).contains t.service_id) := by
    simp only [getTripsForDate, List.map_map]
    have hfun : ((fun tw : TripWithRoute => tw.toGTFSTrip) ∘
        (fun trip => ({ toGTFSTrip := trip, route := routeMapGet g.routes trip.route_id } : TripWithRoute))) =
        fun t : GTFSTrip => t := funext fun t => rfl
    rw [hfun]
    exact List.map_id _
  refine ⟨hmap, by rw [hmap]; exact List.filter_sublist _, fun tw htw => ?_,
    fun t ht hmem => ?_⟩
  · obtain ⟨hroute, htrip, hcont⟩ := getTripsForDate_elem g date tw htw
    refine ⟨by simpa [List.contains] using hcont, hroute, ?_, ?_⟩
    · rw [hroute]
      exact routeMapGet_eq_none_iff g.routes tw.route_id
    · intro r hr
      exact routeMapGet_eq_some g.routes tw.route_id r (hroute.symm.trans hr)
  · refine ⟨{ toGTFSTrip := t, route := routeMapGet g.routes t.route_id }, ?_, rfl⟩
    simp only [getTripsForDate]
    exact List.mem_map.mpr ⟨t, List.mem_filter.mpr ⟨ht, hmem⟩, rfl⟩

/-- Witness for C6: in the §8 projection scenario the returned trip T1
belongs to the active WD service and carries the looked-up route. -/
theorem project_active_trips_witness :
    tripT1WD.service_id ∈ getActiveServiceIds gEx dJul3 ∧
    tripT1WD.route = routeMapGet gEx.routes tripT1WD.route_id := by
  have h := (project_active_trips gEx dJul3).2.2.1 tripT1WD (by decide)
  exact ⟨h.1, h.2.1⟩

/-- C10: when route rows share a route_id, a projected trip referencing
that id carries the last such row — later rows overwrite earlier ones in
the route lookup — and the validator never reads the route collection, so
duplicate route ids are silently tolerated. -/
theorem duplicate_routes_last_wins (g : GTFSData) (date : Nat) :
    (∀ (pre post : List GTFSRoute) (r : GTFSRoute), g.routes = pre ++ r :: post →
      (∀ r2 ∈ post, r2.route_id ≠ r.route_id) →
      ∀ tw ∈ getTripsForDate g date, tw.route_id = r.route_id → tw.route = some r) ∧
    (∀ rs : List GTFSRoute,
      validateGTFSData { g with routes := rs } = validateGTFSData g) := by
  constructor
  · intro pre post r hsplit hpost tw htw hid
    obtain ⟨hroute, _, _⟩ := getTripsForDate_elem g date tw htw
    rw [hroute, hid, hsplit]
    exact routeMapGet_last pre post r r.route_id rfl hpost
  · intro rs
    rfl

/-- Witness for C10: with two route rows both named R1, the projected
trip carries the second one. -/
theorem duplicate_routes_last_wins_witness :
    tripT1second.route = some routeSecond :=
  (duplicate_routes_last_wins gDupRoutes dJul3).1 [routeFirst] [] routeSecond rfl
    (by decide) tripT1second (by decide) rfl

theorem if_length_pos_eq {α β : Type} [DecidableEq α] (l : List α) (x : β) :
    (if 0 < l.length then [x] else []) = (if l = [] then [] else [x]) := by
  by_cases h : l = []
  · simp [h]
  · simp [h, List.length_pos.mpr h]

/-- C5: validate checks exactly the three uniqueness constraints — one
issue per violated constraint, in source order — whose duplicates list
each offending key value once, in first-encounter order, whatever the
multiplicities, and isValid holds iff no issue was produced. -/
theorem validate_uniqueness (g : GTFSData) :
    ((validateGTFSData g).isValid = true ↔ (validateGTFSData g).issues = []) ∧
    (validateGTFSData g).issues =
      (if findDuplicates (g.trips.map (fun t => t.trip_id)) = [] then []
       else [tripIssue (findDuplicates (g.trips.map (fun t => t.trip_id)))]) ++
      (if findDuplicates (g.calendars.map (fun c => c.service_id)) = [] then []
       else [calendarIssue (findDuplicates (g.calendars.map (fun c => c.service_id)))]) ++
      (if findDuplicates (g.calendarDates.map calendarDateKey) = [] then []
       else [calendarDatesIssue (findDuplicates (g.calendarDates.map calendarDateKey))]) ∧
    (∀ arr : List String, (findDuplicates arr).Nodup ∧
      List.Sublist (findDuplicates arr) (mapKeysInOrder arr) ∧
      List.Sublist (mapKeysInOrder arr) arr ∧
      (∀ x : String, x ∈ findDuplicates arr ↔ 2 ≤ countOcc arr x)) := by
  refine ⟨?_, ?_, fun arr => ⟨nodup_findDuplicates arr, findDuplicates_sublist_keys arr,
    mapKeysInOrder_sublist arr, fun x => mem_findDuplicates arr x⟩⟩
  · simp only [validateGTFSData]
    simp [List.length_eq_zero]
  · simp only [validateGTFSData]
    rw [if_length_pos_eq, if_length_pos_eq, if_length_pos_eq]

/-- Witness for C5: the duplicated WD calendar row is reported (WD is a
duplicate key), and validity is still equivalent to issue-freeness. -/
theorem validate_uniqueness_witness :
    ((validateGTFSData gDup).isValid = true ↔ (validateGTFSData gDup).issues = []) ∧
    "WD" ∈ findDuplicates (gDup.calendars.map (fun c => c.service_id)) := by
  refine ⟨(validate_uniqueness gDup).1, ?_⟩
  exact (((validate_uniqueness gDup).2.2
    (gDup.calendars.map (fun c => c.service_id))).2.2.2 "WD").mpr (by decide)

/-- C9: with the wall-clock day supplied as the explicit parameter today,
availableDates is one entry per day of the closed interval from
max(today, range.start) to range.end, and empty when the date range is
empty or today is past range.end. -/
theorem availableDates_interval (g : GTFSData) (today : Nat) :
    (getDateRange g = none → getAvailableDates g today = []) ∧
    (∀ s e : Nat, getDateRange g = some (some s, some e) →
      getAvailableDates g today =
        if max today s ≤ e then
          (List.range (e + 1 - max today s)).map (fun i => max today s + i)
        else []) := by
  constructor
  · intro h
    simp only [getAvailableDates, h]
  · intro s e h
    simp only [getAvailableDates, h]
    have hstart : (if dateGt (some today) (some s) then some today else some s) =
        some (max today s) := by
      by_cases hts : s < today <;> simp [dateGt, hts] <;> omega
    rw [hstart]
    by_cases hle : max today s ≤ e
    · rw [if_neg (by simp [dateGt]; omega), if_pos hle]
      simp only [eachDayOfInterval]
      rw [if_pos hle]
      have harith : e - max today s + 1 = e + 1 - max today s := by omega
      rw [harith]
    · rw [if_pos (by simp [dateGt]; omega), if_neg hle]

/-- Witness for C9: the last three days of 2024 remain available from
2024-12-29 in the §8 dataset. -/
theorem availableDates_interval_witness :
    getAvailableDates gEx (rataDie 2024 12 29) =
      if max (rataDie 2024 12 29) (rataDie 2024 1 1) ≤ rataDie 2024 12 31 then
        (List.range (rataDie 2024 12 31 + 1 -
            max (rataDie 2024 12 29) (rataDie 2024 1 1))).map
          (fun i => max (rataDie 2024 12 29) (rataDie 2024 1 1) + i)
      else [] :=
  (availableDates_interval gEx (rataDie 2024 12 29)).2 (rataDie 2024 1 1)
    (rataDie 2024 12 31) (by decide)

/-- C4 counterexample: on a dataset whose sole calendar has (parseable)
start date 2024-01-02 after end date 2024-01-01, getDateRange returns the
reversed pair whose start, 2024-01-02, is not the minimum of all scanned
dates — 2024-01-01 is scanned and smaller. -/
theorem dateRange_not_min_max :
    getDateRange gRev2 = some (some (rataDie 2024 1 2), some (rataDie 2024 1 1)) ∧
    rataDie 2024 1 1 ∈ allDatasetDates gRev2 ∧
    rataDie 2024 1 1 < rataDie 2024 1 2 := by
  decide

/-- C4 (amended): getDateRange is null exactly when both collections are
empty; when every date string parses and every calendar satisfies
start_date ≤ end_date, it returns the minimum and maximum over all
calendar start dates, end dates, and exception dates (in general its
start is the minimum over start and exception dates only, and its end the
maximum over end and exception dates only, so a reversed calendar range
yields a reversed pair). -/
theorem dateRange_min_max (g : GTFSData)
    (hcal : ∀ c ∈ g.calendars, ∃ s e, parseGTFSDate c.start_date = some s ∧
      parseGTFSDate c.end_date = some e ∧ s ≤ e)
    (hcd : ∀ cd ∈ g.calendarDates, (parseGTFSDate cd.date).isSome) :
    (getDateRange g = none ↔ g.calendars = [] ∧ g.calendarDates = []) ∧
    (∀ mn mx : Option Nat, getDateRange g = some (mn, mx) →
      ∃ a b, mn = some a ∧ mx = some b ∧
        a ∈ allDatasetDates g ∧ b ∈ allDatasetDates g ∧
        ∀ d ∈ allDatasetDates g, a ≤ d ∧ d ≤ b) := by
  have hcal1 : ∀ c ∈ g.calendars, (parseGTFSDate c.start_date).isSome := by
    intro c hc
    rcases hcal c hc with ⟨s, e, hs, he, hse⟩
    simp [hs]
  have hcal2 : ∀ c ∈ g.calendars, (parseGTFSDate c.end_date).isSome := by
    intro c hc
    rcases hcal c hc with ⟨s, e, hs, he, hse⟩
    simp [he]
  by_cases hempty : g.calendars = [] ∧ g.calendarDates = []
  · have hnone : getDateRange g = none := by
      unfold getDateRange
      rw [if_pos (by simp [hempty.1, hempty.2])]
    refine ⟨by simp [hnone, hempty.1, hempty.2], ?_⟩
    intro mn mx h
    rw [hnone] at h
    exact absurd h (by simp)
  · have hne : g.calendars ≠ [] ∨ g.calendarDates ≠ [] := by tauto
    obtain ⟨mn0, mx0, hrange, hmnmem, hmnle, hmxmem, hmxge⟩ :=
      getDateRange_spec g (fun c hc => ⟨hcal1 c hc, hcal2 c hc⟩) hcd hne
    refine ⟨iff_of_false (by simp [hrange]) hempty, ?_⟩
    intro mn mx h
    rw [hrange] at h
    injection h with hpair
    have hf : some mn0 = mn := congrArg Prod.fst hpair
    have hs' : some mx0 = mx := congrArg Prod.snd hpair
    refine ⟨mn0, mx0, hf.symm, hs'.symm, ?_, ?_, ?_⟩
    · simp only [allDatasetDates, List.mem_append]
      simp only [minVals, List.mem_append] at hmnmem
      tauto
    · simp only [allDatasetDates, List.mem_append]
      simp only [maxVals, List.mem_append] at hmxmem
      tauto
    · intro d hd
      simp only [allDatasetDates, List.mem_append] at hd
      rcases hd with (hd | hd) | hd
      · constructor
        · exact hmnle d (by simp only [minVals, List.mem_append]; exact Or.inl hd)
        · rcases List.mem_filterMap.mp hd with ⟨c, hc, hcd2⟩
          rcases hcal c hc with ⟨s, e, hs, he, hse⟩
          have hsd : s = d := Option.some.inj ((hs.symm).trans hcd2)
          have hemem : e ∈ maxVals g := by
            simp only [maxVals, List.mem_append]
            exact Or.inl (List.mem_filterMap.mpr ⟨c, hc, he⟩)
          exact le_trans (hsd ▸ hse) (hmxge e hemem)
      · constructor
        · rcases List.mem_filterMap.mp hd with ⟨c, hc, hcd2⟩
          rcases hcal c hc with ⟨s, e, hs, he, hse⟩
          have hed : e = d := Option.some.inj ((he.symm).trans hcd2)
          have hsmem : s ∈ minVals g := by
            simp only [minVals, List.mem_append]
            exact Or.inl (List.mem_filterMap.mpr ⟨c, hc, hs⟩)
          exact le_trans (hmnle s hsmem) (hed ▸ hse)
        · exact hmxge d (by simp only [maxVals, List.mem_append]; exact Or.inl hd)
      · refine ⟨hmnle d ?_, hmxge d ?_⟩
        · simp only [minVals, List.mem_append]
          exact Or.inr hd
        · simp only [maxVals, List.mem_append]
          exact Or.inr hd

/-- Witness for the amended C4: on the §8 dataset the returned range
2024-01-01 to 2024-12-31 bounds every scanned date. -/
theorem dateRange_min_max_witness :
    ∃ a b, (some (rataDie 2024 1 1) : Option Nat) = some a ∧
      (some (rataDie 2024 12 31) : Option Nat) = some b ∧
      a ∈ allDatasetDates gEx ∧ b ∈ allDatasetDates gEx ∧
      ∀ d ∈ allDatasetDates gEx, a ≤ d ∧ d ≤ b := by
  refine (dateRange_min_max gEx ?_ ?_).2 (some (rataDie 2024 1 1))
      (some (rataDie 2024 12 31)) (by decide)
  · intro c hc
    have hc2 : c = calWD := by simpa [gEx] using hc
    subst hc2
    exact ⟨rataDie 2024 1 1, rataDie 2024 12 31, by decide, by decide, by decide⟩
  · intro cd hcd
    have hc2 : cd = excRemoved ∨ cd = excHoliday := by simpa [gEx] using hcd
    rcases hc2 with rfl | rfl <;> decide

end GTFS
